import Mathlib

/-!
Verification development for the headshots repository: a shallow embedding of
the photo storage transaction workflow (src/lib/photoStorage.ts), the resilient
identity lookup and OAuth provisioning helpers (mobile/src/lib/supabase.ts),
the OAuth callback handler (src/components/auth/AuthHandler.tsx) and the
session reconciliation routine of the auth context, together with theorems
settling the frozen claims about them.

JavaScript string operations used by the source (startsWith, includes, trim,
toLowerCase, split) are re-implemented over character lists so that every
definition evaluates inside the kernel.
-/

namespace Headshots

/-- Boolean check that the second list is a prefix of the first
(JS String.prototype.startsWith receiver comes first). -/
def listStartsWith : List Char → List Char → Bool
  | _, [] => true
  | [], _ :: _ => false
  | c :: cs, p :: ps => c == p && listStartsWith cs ps

/-- Boolean substring containment, the semantics of JS String.prototype.includes. -/
def listIncludes : List Char → List Char → Bool
  | [], sub => sub.isEmpty
  | c :: cs, sub => listStartsWith (c :: cs) sub || listIncludes cs sub

/-- JS s.startsWith(p). -/
def jsStartsWith (s p : String) : Bool := listStartsWith s.data p.data

/-- JS s.includes(sub). -/
def jsIncludes (s sub : String) : Bool := listIncludes s.data sub.data

/-- Whitespace recognizer for the trim model (the whitespace kinds that occur
in the inputs the source handles). -/
def isJsSpace (c : Char) : Bool := c == ' ' || c == '\t' || c == '\n' || c == '\r'

/-- JS s.trim(). -/
def jsTrim (s : String) : String :=
  String.mk (((s.data.dropWhile isJsSpace).reverse.dropWhile isJsSpace).reverse)

/-- ASCII lower-casing of one character, the effect of JS toLowerCase on the
ASCII identifiers and emails the source handles. -/
def jsLowerChar (c : Char) : Char :=
  if 'A' ≤ c ∧ c ≤ 'Z' then Char.ofNat (c.toNat + 32) else c

/-- JS s.toLowerCase() restricted to ASCII. -/
def jsToLower (s : String) : String := String.mk (s.data.map jsLowerChar)

/-- JS email.split(at-sign)[0]: everything before the first at-sign
(the whole string when no at-sign occurs). -/
def emailLocalPart (s : String) : String :=
  String.mk (s.data.takeWhile (fun c => c != '@'))

/-- JS truthiness of an optional string: undefined and the empty string are falsy. -/
def jsTruthy : Option String → Option String
  | some s => if s = "" then none else some s
  | none => none

namespace PhotoStorage

/-- Constant MAX_PHOTOS_PER_USER of photoStorage.ts. -/
def MAX_PHOTOS_PER_USER : Nat := 5

/-- Constant MAX_FILE_SIZE of photoStorage.ts (10 MiB). -/
def MAX_FILE_SIZE : Nat := 10 * 1024 * 1024

/-- Character class of the sanitizer regex in generateFileName:
characters matching [a-zA-Z0-9.-]. -/
def isAllowedChar (c : Char) : Bool :=
  if ('a' ≤ c ∧ c ≤ 'z') ∨ ('A' ≤ c ∧ c ≤ 'Z') ∨ ('0' ≤ c ∧ c ≤ '9') ∨ c = '.' ∨ c = '-'
  then true else false

/-- The cleanName computation of generateFileName:
originalName.replace of every character outside [a-zA-Z0-9.-] by an underscore.
Note the regex REPLACES disallowed characters with an underscore; it does not
remove them. -/
def cleanName (originalName : String) : String :=
  String.mk (originalName.data.map (fun c => if isAllowedChar c then c else '_'))

/-- What the specification text describes instead: a sanitizer that strips
(removes) every character outside [A-Za-z0-9.-]. Stated from the spec words,
only for comparison against cleanName. -/
def specStripName (originalName : String) : String :=
  String.mk (originalName.data.filter isAllowedChar)

/-- generateFileName of photoStorage.ts. Date.now() is passed in as the
timestamp argument. The source also computes an unused local variable
extension from the original name; it does not influence the result and is
omitted. -/
def generateFileName (organizationId userId : String) (timestamp : Nat)
    (originalName : String) : String :=
  organizationId ++ "/" ++ userId ++ "/" ++ toString timestamp ++ "_" ++ cleanName originalName

/-- Delay computed between attempts inside withRetry of photoStorage.ts:
Math.min(1000 * attempt, 2000). -/
def photoRetryDelay (attempt : Nat) : Nat := min (1000 * attempt) 2000

/-- The backoff formula as the specification states it:
min(base * 2 ^ (attempt - 1), capMs). Stated from the spec words, only for
comparison against the delays of the two retry wrappers. -/
def specBackoffDelay (base capMs attempt : Nat) : Nat :=
  min (base * 2 ^ (attempt - 1)) capMs

/-- Outcome of one attempt of a wrapped async operation: the awaited value, or
a thrown error carrying a message. -/
inductive AttemptOutcome (α : Type) where
  | value : α → AttemptOutcome α
  | thrown : String → AttemptOutcome α
  deriving Repr, DecidableEq

/-- Loop of withRetry of photoStorage.ts over the outcomes of the successive
attempts (the list length plays the role of maxRetries). Returns the overall
outcome together with the list of delays waited between attempts; a delay is
only waited when a further attempt remains, and the delay before retrying
after attempt number n is photoRetryDelay n. -/
def withRetryAux {α : Type} (attempt : Nat) :
    List (AttemptOutcome α) → Except String α × List Nat
  | [] => (Except.error "no attempt", [])
  | [o] =>
    match o with
    | AttemptOutcome.value a => (Except.ok a, [])
    | AttemptOutcome.thrown e => (Except.error e, [])
  | o :: rest =>
    match o with
    | AttemptOutcome.value a => (Except.ok a, [])
    | AttemptOutcome.thrown _ =>
      let r := withRetryAux (attempt + 1) rest
      (r.1, photoRetryDelay attempt :: r.2)

/-- withRetry of photoStorage.ts, starting at attempt 1. -/
def withRetry {α : Type} (outcomes : List (AttemptOutcome α)) :
    Except String α × List Nat :=
  withRetryAux 1 outcomes

/-- One row of the photos table as photoStorage.ts reads and writes it. -/
structure Photo where
  takenbyuserId : String
  imageurl : String
  deriving Repr, DecidableEq

/-- The File argument of uploadPhoto: mime type, byte size, original name. -/
structure UploadFile where
  type : String
  size : Nat
  name : String
  deriving Repr, DecidableEq

/-- Environment of one uploadPhoto call: the outcome of each collaborator
operation. The supabase query builders resolve to a result object carrying a
data and an error field and do not reject, so each withRetry-wrapped
operation completes on its first attempt; the flags below choose between the
success result and the error result of that single execution. removeFails is
the outcome of the compensating storage remove; the source ignores it. -/
structure UploadEnv where
  countFails : Bool
  uploadFails : Bool
  publicUrl : Option String
  insertFails : Bool
  removeFails : Bool
  deriving Repr, DecidableEq

/-- Result record of uploadPhoto. -/
structure PhotoUploadResult where
  success : Bool
  data : Option Photo
  error : Option String
  deriving Repr, DecidableEq

/-- Network calls uploadPhoto can issue, in order of emission. -/
inductive StoreEvent where
  | countQuery (owner : String)
  | storagePut (key : String)
  | dbInsert (owner url : String)
  | storageRemove (key : String)
  deriving Repr, DecidableEq

/-- uploadPhoto of photoStorage.ts. Returns the result record, the photos
table after the call, and the trace of network calls issued. The photos table
of the relational store is the state; reads and the insert act on it. -/
def uploadPhoto (file : UploadFile) (userId organizationId : String)
    (timestamp : Nat) (env : UploadEnv) (photos : List Photo) :
    PhotoUploadResult × List Photo × List StoreEvent :=
  if ¬ jsStartsWith file.type "image/" then
    ({ success := false, data := none, error := some "File must be an image" }, photos, [])
  else if file.size > MAX_FILE_SIZE then
    ({ success := false, data := none, error := some "File size must be less than 10MB" },
      photos, [])
  else
    let countOp : Option (List Photo) × Option String :=
      if env.countFails then (none, some "count failed")
      else (some ((photos.filter (fun p => p.takenbyuserId == userId)).take 10), none)
    match (withRetry [AttemptOutcome.value countOp]).1 with
    | Except.error _ =>
      ({ success := false, data := none,
         error := some "An unexpected error occurred during upload" },
        photos, [StoreEvent.countQuery userId])
    | Except.ok res =>
      if res.2.isSome then
        ({ success := false, data := none, error := some "Failed to check existing photos" },
          photos, [StoreEvent.countQuery userId])
      else if MAX_PHOTOS_PER_USER ≤ (res.1.getD []).length then
        ({ success := false, data := none,
           error := some "Maximum of 5 photos allowed per member" },
          photos, [StoreEvent.countQuery userId])
      else
        let fileName := generateFileName organizationId userId timestamp file.name
        let uploadOp : Option String × Option String :=
          if env.uploadFails then (none, some "upload failed") else (some fileName, none)
        match (withRetry [AttemptOutcome.value uploadOp]).1 with
        | Except.error _ =>
          ({ success := false, data := none,
             error := some "An unexpected error occurred during upload" },
            photos, [StoreEvent.countQuery userId, StoreEvent.storagePut fileName])
        | Except.ok upRes =>
          if upRes.2.isSome then
            ({ success := false, data := none,
               error := some "Failed to upload photo to storage" },
              photos, [StoreEvent.countQuery userId, StoreEvent.storagePut fileName])
          else
            match env.publicUrl with
            | none =>
              ({ success := false, data := none, error := some "Failed to get photo URL" },
                photos, [StoreEvent.countQuery userId, StoreEvent.storagePut fileName])
            | some publicUrl =>
              let insertOp : Option Photo × Option String :=
                if env.insertFails then (none, some "insert failed")
                else (some { takenbyuserId := userId, imageurl := publicUrl }, none)
              match (withRetry [AttemptOutcome.value insertOp]).1 with
              | Except.error _ =>
                ({ success := false, data := none,
                   error := some "An unexpected error occurred during upload" },
                  photos,
                  [StoreEvent.countQuery userId, StoreEvent.storagePut fileName,
                   StoreEvent.dbInsert userId publicUrl])
              | Except.ok insRes =>
                if insRes.2.isSome then
                  ({ success := false, data := none,
                     error := some "Failed to save photo metadata" },
                    photos,
                    [StoreEvent.countQuery userId, StoreEvent.storagePut fileName,
                     StoreEvent.dbInsert userId publicUrl,
                     StoreEvent.storageRemove fileName])
                else
                  match insRes.1 with
                  | some photo =>
                    ({ success := true, data := some photo, error := none },
                      photos ++ [photo],
                      [StoreEvent.countQuery userId, StoreEvent.storagePut fileName,
                       StoreEvent.dbInsert userId publicUrl])
                  | none =>
                    ({ success := false, data := none,
                       error := some "An unexpected error occurred during upload" },
                      photos,
                      [StoreEvent.countQuery userId, StoreEvent.storagePut fileName,
                       StoreEvent.dbInsert userId publicUrl])

/-- Number of Photo rows owned by the given member. -/
def countOwner (photos : List Photo) (owner : String) : Nat :=
  (photos.filter (fun p => p.takenbyuserId == owner)).length

/-- One uploadPhoto invocation with its inputs and environment. -/
structure UploadCall where
  file : UploadFile
  userId : String
  organizationId : String
  timestamp : Nat
  env : UploadEnv

/-- Sequential execution of a list of uploadPhoto calls against the photos
table. -/
def runUploads (photos : List Photo) : List UploadCall → List Photo
  | [] => photos
  | c :: rest =>
    runUploads (uploadPhoto c.file c.userId c.organizationId c.timestamp c.env photos).2.1 rest

end PhotoStorage

namespace Mobile

/-- Delay computed between attempts inside createResilientFetch of
mobile/src/lib/supabase.ts: Math.min(1000 * Math.pow(2, attempt - 1), 3000). -/
def resilientRetryDelay (attempt : Nat) : Nat := min (1000 * 2 ^ (attempt - 1)) 3000

/-- Result of one settled promise of the Promise.allSettled pair inside
getCurrentUser: fulfilled with a response value, or rejected. -/
inductive SettledResult (α : Type) where
  | fulfilled : α → SettledResult α
  | rejected : SettledResult α
  deriving Repr, DecidableEq

/-- Shape shared by the getUser and getSession responses as getCurrentUser
reads them: the identity they carry (data.user respectively
data.session.user) and the error field. -/
structure AuthResponse where
  user : Option String
  error : Option String
  deriving Repr, DecidableEq

/-- Guard of the two acceptance branches of getCurrentUser: the settled result
is fulfilled, its error field is absent, and it carries an identity. -/
def fulfilledOkUser : SettledResult AuthResponse → Bool
  | SettledResult.fulfilled v => v.error.isNone && v.user.isSome
  | SettledResult.rejected => false

/-- Identity carried by a settled result (none when rejected). -/
def resultUser : SettledResult AuthResponse → Option String
  | SettledResult.fulfilled v => v.user
  | SettledResult.rejected => none

/-- Body of the fetch function inside getCurrentUser, applied to the two
settled results of Promise.allSettled([getUser, getSession]): accept the
getUser identity when present and error-free, otherwise fall back to the
getSession identity; every remaining branch of the source (the explicit
Auth-session-missing checks and the final fallthrough) returns null. -/
def chooseIdentity (userResult sessionResult : SettledResult AuthResponse) : Option String :=
  if fulfilledOkUser userResult then resultUser userResult
  else if fulfilledOkUser sessionResult then resultUser sessionResult
  else none

/-- Outcome of one attempt of the resilient fetch inside getCurrentUser:
either the timeout promise wins the race, or the fetch function completes
with the two settled results. The fetch function itself never throws
(Promise.allSettled does not reject and every branch returns). -/
inductive GcuAttempt where
  | timeout
  | completed (userResult sessionResult : SettledResult AuthResponse)
  deriving Repr, DecidableEq

/-- Message of the error thrown when the timeout promise wins
(operation GetCurrentUser, timeoutMs 4000). -/
def timeoutMsg : String := "GetCurrentUser timeout after 4000ms"

/-- Attempt loop of createResilientFetch as instantiated by getCurrentUser
(maxRetries is the list length; the source passes 2). A completed attempt
returns its value; a timed-out attempt records the timeout error and, when a
further attempt remains, waits resilientRetryDelay of the attempt number and
retries; exhaustion throws the last error. The non-retryable short-circuit on
Auth-session-missing and Invalid-JWT messages never fires here because the
only thrown error is the timeout message. -/
def resilientFetchRun (attempt : Nat) :
    List GcuAttempt → Except String (Option String) × List Nat
  | [] => (Except.error timeoutMsg, [])
  | [a] =>
    match a with
    | GcuAttempt.completed u s => (Except.ok (chooseIdentity u s), [])
    | GcuAttempt.timeout => (Except.error timeoutMsg, [])
  | a :: rest =>
    match a with
    | GcuAttempt.completed u s => (Except.ok (chooseIdentity u s), [])
    | GcuAttempt.timeout =>
      let r := resilientFetchRun (attempt + 1) rest
      (r.1, resilientRetryDelay attempt :: r.2)

/-- getCurrentUser of mobile/src/lib/supabase.ts at its public boundary, with
the thrown-or-returned distinction kept explicit: the try/catch around the
resilient fetch converts every thrown error into a returned null. -/
def getCurrentUserEx (attempts : List GcuAttempt) : Except String (Option String) :=
  match (resilientFetchRun 1 attempts).1 with
  | Except.ok u => Except.ok u
  | Except.error _ => Except.ok none

/-- getCurrentUser as its callers see it. -/
def getCurrentUser (attempts : List GcuAttempt) : Option String :=
  match getCurrentUserEx attempts with
  | Except.ok u => u
  | Except.error _ => none

/-- One row of the users table (a MemberProfile). -/
structure UserProfileRow where
  id : String
  name : String
  email : String
  organization_id : String
  role : String
  deriving Repr, DecidableEq

/-- One row of the organizations table. -/
structure Organization where
  id : String
  name : String
  join_code : String
  deriving Repr, DecidableEq

/-- The relational store as the provisioning helper reads and writes it. -/
structure Db where
  users : List UserProfileRow
  organizations : List Organization
  deriving Repr, DecidableEq

/-- Organization lookup by join code (select ... eq join_code ... maybeSingle). -/
def findOrg (db : Db) (code : String) : Option Organization :=
  db.organizations.find? (fun o => o.join_code == code)

/-- User profile lookup by identity id (select ... eq id ... maybeSingle). -/
def findUser (db : Db) (userId : String) : Option UserProfileRow :=
  db.users.find? (fun u => u.id == userId)

/-- The OAuth identity passed to createUserProfileFromOAuth. A missing id is
modelled by the empty string (the source tests JS falsiness of user?.id). -/
structure OAuthUser where
  id : String
  email : Option String
  metaFullName : Option String
  metaName : Option String
  deriving Repr, DecidableEq

/-- Environment of one createUserProfileFromOAuth call: whether the
organization lookup times out or errors, whether the existence check errors
(the source ignores its error field, so a failed check reads as no existing
row), and the per-attempt outcome of the profile insert (none is success,
some msg the returned error). -/
structure ProvisionEnv where
  orgTimeout : Bool
  orgError : Bool
  existingCheckFails : Bool
  insertOutcomes : List (Option String)
  deriving Repr, DecidableEq

/-- Display-name derivation of createUserProfileFromOAuth:
user_metadata.full_name, else user_metadata.name, else the local part of the
email, else the fixed placeholder; each step skipped when absent or empty
(JS truthiness). -/
def deriveUserName (u : OAuthUser) : String :=
  match jsTruthy u.metaFullName with
  | some n => n
  | none =>
    match jsTruthy u.metaName with
    | some n => n
    | none =>
      match jsTruthy (u.email.map emailLocalPart) with
      | some n => n
      | none => "Unknown User"

/-- Profile insert loop of createUserProfileFromOAuth (maxAttempts is the
list length; the source passes 3). A successful attempt appends the row; a
failed attempt retries after a fixed delay unless it was the last one, in
which case its error is returned; the empty list models the unreachable
fallthrough after the loop. A failed attempt mutates nothing. -/
def insertWithAttempts (row : UserProfileRow) (db : Db) :
    List (Option String) → Option String × Db
  | [] => (some "Failed to create profile after multiple attempts", db)
  | outcome :: rest =>
    match outcome with
    | none => (none, { db with users := db.users ++ [row] })
    | some msg =>
      if rest.isEmpty then (some msg, db)
      else insertWithAttempts row db rest

/-- createUserProfileFromOAuth of mobile/src/lib/supabase.ts. Returns the
error field of the result (none is success) and the relational store after
the call. Error messages of handleDatabaseError are abstracted to fixed
strings; they carry no control flow. -/
def createUserProfileFromOAuth (user : OAuthUser) (joinCode : String)
    (role : Option String) (env : ProvisionEnv) (db : Db) : Option String × Db :=
  if user.id = "" then (some "Invalid user data", db)
  else if jsTrim joinCode = "" then (some "Join code is required", db)
  else if env.orgTimeout then (some "An unexpected error occurred", db)
  else if env.orgError then (some "Failed to validate organization. Please try again.", db)
  else
    match findOrg db (jsTrim joinCode) with
    | none => (some "Invalid join code", db)
    | some orgData =>
      let existingProfile : Option UserProfileRow :=
        if env.existingCheckFails then none else findUser db user.id
      match existingProfile with
      | some _ => (none, db)
      | none =>
        let userName := deriveUserName user
        let row : UserProfileRow :=
          { id := user.id
            name := jsTrim userName
            email := jsToLower (jsTrim (user.email.getD ""))
            organization_id := orgData.id
            role :=
              match jsTruthy (role.map jsTrim) with
              | some r => r
              | none => "member" }
        insertWithAttempts row db env.insertOutcomes

/-- Number of users-table rows carrying the given identity id. -/
def countUsersById (db : Db) (userId : String) : Nat :=
  db.users.countP (fun u => u.id == userId)

end Mobile

namespace Handler

/-- The parts of window.location the OAuth callback handler inspects. -/
structure Location where
  hash : String
  search : String
  deriving Repr, DecidableEq

/-- Detection of an access-token or error marker in the redirect fragment
(window.location.hash truthy and containing access_token or error). -/
def hasOAuthHash (loc : Location) : Bool :=
  loc.hash != "" && (jsIncludes loc.hash "access_token" || jsIncludes loc.hash "error")

/-- Detection of a code or error marker in the query string. -/
def hasOAuthParams (loc : Location) : Bool :=
  loc.search != "" && (jsIncludes loc.search "code=" || jsIncludes loc.search "error=")

/-- Outcome of the session exchange (supabase.auth.getSession raced against
the 15s timer) inside handleOAuthCallback. -/
inductive SessionOutcome where
  | timeout
  | errorResult (msg : String)
  | noSession
  | ok (userId : String)
  deriving Repr, DecidableEq

/-- Outcome of the profile existence check (raced against the 10s timer). -/
inductive ProfileOutcome where
  | timeout
  | errorResult
  | found
  | absent
  deriving Repr, DecidableEq

/-- Environment of one handleOAuthCallback invocation. authCheckTimeout is
the outcome of the checkAuthStatus race in the profile-found branch; the
source navigates to /org-home either way, so it does not influence the
emitted events. -/
structure CallbackEnv where
  session : SessionOutcome
  profile : ProfileOutcome
  authCheckTimeout : Bool
  deriving Repr, DecidableEq

/-- Observable actions of handleOAuthCallback, in order of emission. -/
inductive AuthEvent where
  | getSession
  | profileQuery (userId : String)
  | authStatusCheck
  | replaceUrl
  | setErrorMsg (msg : String)
  | navigate (dest : String)
  deriving Repr, DecidableEq

/-- handleOAuthCallback of AuthHandler.tsx as the trace of actions one
invocation emits. isProcessing is the single-flight guard read on entry; when
it is set the invocation is the re-entrant no-op of the source. When neither
redirect marker is present the invocation returns before any side effect.
Otherwise the guard is set, exactly one session exchange runs, and the
branches below mirror the source: every failure path sets the error message,
cleans the URL and navigates to /login after the fixed delay; the success
path cleans the URL first, then checks the profile and routes to /org-home or
/post-auth (a profile-check error also routes to /post-auth). -/
def handleOAuthCallback (isProcessing : Bool) (loc : Location) (env : CallbackEnv) :
    List AuthEvent :=
  if isProcessing then []
  else if ¬ (hasOAuthHash loc || hasOAuthParams loc) then []
  else
    match env.session with
    | SessionOutcome.timeout =>
      [AuthEvent.getSession, AuthEvent.setErrorMsg "Session retrieval timeout",
       AuthEvent.replaceUrl, AuthEvent.navigate "/login"]
    | SessionOutcome.errorResult msg =>
      [AuthEvent.getSession,
       AuthEvent.setErrorMsg ("OAuth authentication failed: " ++ msg),
       AuthEvent.replaceUrl, AuthEvent.navigate "/login"]
    | SessionOutcome.noSession =>
      [AuthEvent.getSession,
       AuthEvent.setErrorMsg "Authentication failed. No session created.",
       AuthEvent.replaceUrl, AuthEvent.navigate "/login"]
    | SessionOutcome.ok userId =>
      match env.profile with
      | ProfileOutcome.timeout =>
        [AuthEvent.getSession, AuthEvent.replaceUrl, AuthEvent.profileQuery userId,
         AuthEvent.setErrorMsg "Profile check timeout", AuthEvent.replaceUrl,
         AuthEvent.navigate "/login"]
      | ProfileOutcome.errorResult =>
        [AuthEvent.getSession, AuthEvent.replaceUrl, AuthEvent.profileQuery userId,
         AuthEvent.navigate "/post-auth"]
      | ProfileOutcome.found =>
        [AuthEvent.getSession, AuthEvent.replaceUrl, AuthEvent.profileQuery userId,
         AuthEvent.authStatusCheck, AuthEvent.navigate "/org-home"]
      | ProfileOutcome.absent =>
        [AuthEvent.getSession, AuthEvent.replaceUrl, AuthEvent.profileQuery userId,
         AuthEvent.navigate "/post-auth"]

end Handler

namespace AuthCtx

/-- Outcome of one supabase.auth.getSession call raced against the 3s timer
inside validateExistingSession. -/
inductive GetSessionOutcome where
  | timeout
  | errorResult
  | noSession
  | session (accessToken : Option String) (expiresAt : Option Nat)
  deriving Repr, DecidableEq

/-- validateExistingSession of the auth context: false on timeout, error or
missing session; false when the session carries no access token (JS falsiness
covers the empty string) or an expired expires_at; true otherwise. now is
Date.now() in milliseconds; expires_at is in seconds. -/
def validateExistingSession (o : GetSessionOutcome) (now : Nat) : Bool :=
  match o with
  | GetSessionOutcome.timeout => false
  | GetSessionOutcome.errorResult => false
  | GetSessionOutcome.noSession => false
  | GetSessionOutcome.session accessToken expiresAt =>
    match accessToken with
    | none => false
    | some tok =>
      if tok = "" then false
      else
        match expiresAt with
        | some e => if e ≠ 0 ∧ e * 1000 < now then false else true
        | none => true

/-- Outcome of the getUserProfile call inside checkAuthStatus: a completed
result with optional data, an error whose message mentions a timeout, another
error, or a rejection caught by the surrounding try. -/
inductive ProfileFetchOutcome where
  | ok (data : Option Mobile.UserProfileRow)
  | errorTimeout
  | errorOther (msg : String)
  | thrown
  deriving Repr, DecidableEq

/-- The state the auth context holds: cached identity, cached profile, error
banner, and the shared retry counter of automatic reconcile attempts. -/
structure AuthState where
  user : Option String
  profile : Option Mobile.UserProfileRow
  error : Option String
  retryCount : Nat
  deriving Repr, DecidableEq

/-- Environment of one checkAuthStatus run: the attempt outcomes of the first
getCurrentUser, the session-validation outcome of the retry branch, the
attempt outcomes of the second getCurrentUser after a session restore, the
profile fetch outcome, and the session-validation outcome of the
no-user branch. -/
structure CheckAuthEnv where
  gcu1 : List Mobile.GcuAttempt
  validate1 : GetSessionOutcome
  gcu2 : List Mobile.GcuAttempt
  profileFetch : ProfileFetchOutcome
  validate2 : GetSessionOutcome
  deriving Repr, DecidableEq

/-- Error banner used for transient profile-fetch problems. -/
def networkDelayMsg : String := "Network delay — some data may not load. Try refreshing."

/-- checkAuthStatus of the auth context. The getCurrentUser collaborator it
calls is the web twin of the mobile getCurrentUser embedded above (same
function name, same role, same never-throws boundary per the spec), so the
mobile model is reused for it. Returns the boolean result and the
state after the run. The routine first clears the error banner, fetches the
current user, and when that yields nothing and the retry budget is not
exhausted it bumps the counter, validates the cached session and on success
fetches the user once more; the outcome is then written into the cached user
unconditionally (setUser of currentUser-or-null). With a user it fetches the
profile (success resets the counter; a timeout or error clears the profile
and sets a banner); without one it clears the profile and, when the budget is
exhausted, either resets the counter after a failed session validation or
sets the temporarily-unavailable banner. -/
def checkAuthStatus (st : AuthState) (env : CheckAuthEnv) (now : Nat) :
    Bool × AuthState :=
  let st0 := { st with error := none }
  let firstUser := Mobile.getCurrentUser env.gcu1
  let afterRetry :=
    if firstUser.isNone ∧ st0.retryCount < 2 then
      let st1 := { st0 with retryCount := st0.retryCount + 1 }
      if validateExistingSession env.validate1 now then
        (Mobile.getCurrentUser env.gcu2, st1)
      else
        (firstUser, st1)
    else
      (firstUser, st0)
  let currentUser := afterRetry.1
  let st2 := { afterRetry.2 with user := currentUser }
  match currentUser with
  | some _ =>
    match env.profileFetch with
    | ProfileFetchOutcome.ok data =>
      (data.isSome, { st2 with profile := data, retryCount := 0 })
    | ProfileFetchOutcome.errorTimeout =>
      (false, { st2 with error := some networkDelayMsg, profile := none })
    | ProfileFetchOutcome.errorOther msg =>
      (false, { st2 with error := some msg, profile := none })
    | ProfileFetchOutcome.thrown =>
      (false, { st2 with error := some networkDelayMsg, profile := none })
  | none =>
    let st3 := { st2 with profile := none }
    if st3.retryCount ≥ 2 then
      if validateExistingSession env.validate2 now then
        (false, { st3 with error := some "Session temporarily unavailable. Please try again." })
      else
        (false, { st3 with retryCount := 0 })
    else
      (false, st3)

end AuthCtx

/-- Helper: a settled result accepted by the getCurrentUser guard carries an
identity. -/
theorem fulfilledOk_isSome (r : Mobile.SettledResult Mobile.AuthResponse)
    (h : Mobile.fulfilledOkUser r = true) : (Mobile.resultUser r).isSome = true := by
  cases r with
  | fulfilled v =>
    simp only [Mobile.fulfilledOkUser, Bool.and_eq_true] at h
    simpa [Mobile.resultUser] using h.2
  | rejected => simp [Mobile.fulfilledOkUser] at h

/-- C4. For every retry-wrapped operation, the delay waited after attempt
number n equals min(base * 2 ^ (n - 1), capMs): the photo-storage withRetry
delay min(1000 * n, 2000) coincides with the formula at base 1000 and cap
2000 for every attempt number from 1 on, and the resilient fetch wrapper
delay is literally the formula at base 1000 and cap 3000. -/
theorem C4_backoff_formula (attempt : Nat) (h : 1 ≤ attempt) :
    PhotoStorage.photoRetryDelay attempt = PhotoStorage.specBackoffDelay 1000 2000 attempt ∧
    Mobile.resilientRetryDelay attempt = PhotoStorage.specBackoffDelay 1000 3000 attempt := by
  constructor
  · match attempt, h with
    | 1, _ => rfl
    | (n + 2), _ =>
      have h2 : 2 ≤ 2 ^ (n + 1) := Nat.le_self_pow (Nat.succ_ne_zero n) 2
      have h3 : 1000 * 2 ≤ 1000 * 2 ^ (n + 1) := Nat.mul_le_mul_left 1000 h2
      show min (1000 * (n + 2)) 2000 = min (1000 * 2 ^ (n + 2 - 1)) 2000
      have he : n + 2 - 1 = n + 1 := rfl
      rw [he]
      generalize hp : 2 ^ (n + 1) = P at h3 ⊢
      omega
  · rfl

/-- Witness for C4 at attempt number 3. -/
theorem C4_backoff_formula_witness :
    PhotoStorage.photoRetryDelay 3 = PhotoStorage.specBackoffDelay 1000 2000 3 ∧
    Mobile.resilientRetryDelay 3 = PhotoStorage.specBackoffDelay 1000 3000 3 :=
  C4_backoff_formula 3 (by decide)

/-- C9, counterexample to the claim as stated: the sanitizer of
generateFileName does not strip characters outside [A-Za-z0-9.-]; it replaces
each of them with an underscore, so the final name segment of the derived key
can contain an underscore that is not a template separator, differing from
the spec-described stripping sanitizer. -/
theorem C9_counterexample :
    PhotoStorage.cleanName "a b.jpg" = "a_b.jpg" ∧
    PhotoStorage.specStripName "a b.jpg" = "ab.jpg" ∧
    PhotoStorage.cleanName "a b.jpg" ≠ PhotoStorage.specStripName "a b.jpg" ∧
    PhotoStorage.generateFileName "org1" "u1" 17 "a b.jpg" = "org1/u1/17_a_b.jpg" ∧
    (∃ c ∈ (PhotoStorage.cleanName "a b.jpg").data, PhotoStorage.isAllowedChar c = false) := by
  refine ⟨by decide, by decide, by decide, by decide, '_', by decide, by decide⟩

/-- C9, amended: the storage key is derived deterministically as
organizationId/ownerMemberId/timestamp_sanitizedName where the sanitizer
replaces each character outside [A-Za-z0-9.-] with an underscore, so every
character of the sanitized name segment is in the class or is an
underscore. -/
theorem C9_filename_derivation (org uid : String) (ts : Nat) (nm : String) :
    PhotoStorage.generateFileName org uid ts nm =
      org ++ "/" ++ uid ++ "/" ++ toString ts ++ "_" ++ PhotoStorage.cleanName nm ∧
    ∀ c ∈ (PhotoStorage.cleanName nm).data,
      PhotoStorage.isAllowedChar c = true ∨ c = '_' := by
  refine ⟨rfl, ?_⟩
  intro c hc
  have hm : c ∈ nm.data.map
      (fun a => if PhotoStorage.isAllowedChar a then a else '_') := hc
  rcases List.mem_map.mp hm with ⟨a, -, rfl⟩
  by_cases ha : PhotoStorage.isAllowedChar a
  · left; simp [ha]
  · right; simp [ha]

/-- Witness for C9 amended at a concrete character of a concrete name. -/
theorem C9_filename_derivation_witness :
    PhotoStorage.isAllowedChar 'x' = true ∨ 'x' = '_' :=
  (C9_filename_derivation "o" "u" 3 "x").2 'x' (by decide)

/-- C5. getCurrentUser combines the direct current-user call with the
current-session call and accepts either non-error identity: when the getUser
result is fulfilled, error-free and carries an identity, that identity is the
outcome; when it is not and the getSession result is, the session identity is
the outcome; and the outcome is empty exactly when neither call yields a
non-error identity, so a non-error identity is never discarded in favor of an
error from the other call. -/
theorem C5_identity_first_success
    (u s : Mobile.SettledResult Mobile.AuthResponse) :
    (Mobile.fulfilledOkUser u = true →
      Mobile.chooseIdentity u s = Mobile.resultUser u ∧
      (Mobile.resultUser u).isSome = true) ∧
    (Mobile.fulfilledOkUser u = false → Mobile.fulfilledOkUser s = true →
      Mobile.chooseIdentity u s = Mobile.resultUser s ∧
      (Mobile.resultUser s).isSome = true) ∧
    (Mobile.chooseIdentity u s = none ↔
      Mobile.fulfilledOkUser u = false ∧ Mobile.fulfilledOkUser s = false) := by
  refine ⟨?_, ?_, ?_⟩
  · intro hu
    exact ⟨by simp [Mobile.chooseIdentity, hu], fulfilledOk_isSome u hu⟩
  · intro hu hs
    exact ⟨by simp [Mobile.chooseIdentity, hu, hs], fulfilledOk_isSome s hs⟩
  · by_cases hu : Mobile.fulfilledOkUser u
    · have h1 := fulfilledOk_isSome u hu
      simp [Mobile.chooseIdentity, hu, Option.isSome_iff_ne_none.mp h1]
    · by_cases hs : Mobile.fulfilledOkUser s
      · have h2 := fulfilledOk_isSome s hs
        simp [Mobile.chooseIdentity, hu, hs, Option.isSome_iff_ne_none.mp h2]
      · simp [Mobile.chooseIdentity, hu, hs]

/-- Witness for C5: a fulfilled error-free getUser result determines the
outcome against a rejected getSession result. -/
theorem C5_identity_first_success_witness :
    Mobile.chooseIdentity
        (Mobile.SettledResult.fulfilled { user := some "u1", error := none })
        Mobile.SettledResult.rejected =
      Mobile.resultUser
        (Mobile.SettledResult.fulfilled { user := some "u1", error := none }) ∧
    (Mobile.resultUser
        (Mobile.SettledResult.fulfilled { user := some "u1", error := none })).isSome = true :=
  (C5_identity_first_success
    (Mobile.SettledResult.fulfilled { user := some "u1", error := none })
    Mobile.SettledResult.rejected).1 rfl

/-- C10. getCurrentUser is total at the public boundary: whatever the attempt
outcomes, the boundary returns (never throws); whenever the resilient fetch
inside throws, the boundary returns null; and the all-timeouts environment
and the no-session environment are indistinguishable by the returned value,
both yielding null. -/
theorem C10_getCurrentUser_never_throws (attempts : List Mobile.GcuAttempt) :
    (∃ u, Mobile.getCurrentUserEx attempts = Except.ok u) ∧
    (∀ e, (Mobile.resilientFetchRun 1 attempts).1 = Except.error e →
      Mobile.getCurrentUserEx attempts = Except.ok none) ∧
    Mobile.getCurrentUser [Mobile.GcuAttempt.timeout, Mobile.GcuAttempt.timeout] = none ∧
    Mobile.getCurrentUser
      [Mobile.GcuAttempt.completed
        (Mobile.SettledResult.fulfilled { user := none, error := some "Auth session missing!" })
        (Mobile.SettledResult.fulfilled { user := none, error := some "Auth session missing!" })]
      = none := by
  refine ⟨?_, ?_, rfl, rfl⟩
  · cases h : (Mobile.resilientFetchRun 1 attempts).1 with
    | ok u => exact ⟨u, by simp [Mobile.getCurrentUserEx, h]⟩
    | error e => exact ⟨none, by simp [Mobile.getCurrentUserEx, h]⟩
  · intro e he
    simp [Mobile.getCurrentUserEx, he]

/-- Witness for C10: the all-timeouts run returns ok none through the
boundary. -/
theorem C10_getCurrentUser_never_throws_witness :
    Mobile.getCurrentUserEx [Mobile.GcuAttempt.timeout, Mobile.GcuAttempt.timeout] =
      Except.ok none :=
  (C10_getCurrentUser_never_throws
    [Mobile.GcuAttempt.timeout, Mobile.GcuAttempt.timeout]).2.1 Mobile.timeoutMsg rfl

/-- C8. The OAuth callback resolver is single-flight: an invocation entered
while the guard is set emits nothing; when neither redirect marker is present
the invocation emits nothing; and for a first invocation with a marker
followed by a second invocation made while the first still holds the guard,
the combined trace contains exactly one session-exchange call. -/
theorem C8_single_flight_guard (loc : Handler.Location)
    (env1 env2 : Handler.CallbackEnv) :
    Handler.handleOAuthCallback true loc env1 = [] ∧
    ((Handler.hasOAuthHash loc || Handler.hasOAuthParams loc) = false →
      Handler.handleOAuthCallback false loc env1 = []) ∧
    ((Handler.hasOAuthHash loc || Handler.hasOAuthParams loc) = true →
      (Handler.handleOAuthCallback false loc env1 ++
        Handler.handleOAuthCallback true loc env2).count Handler.AuthEvent.getSession = 1) := by
  refine ⟨rfl, ?_, ?_⟩
  · intro h
    simp [Handler.handleOAuthCallback, h]
  · intro h
    rcases env1 with ⟨sess, prof, ac⟩
    cases sess <;> cases prof <;>
      simp [Handler.handleOAuthCallback, h, List.count_append, List.count_cons,
        List.count_nil]

/-- Witness for C8 at a concrete access-token fragment. -/
theorem C8_single_flight_guard_witness :
    (Handler.handleOAuthCallback false
        { hash := "#access_token=abc", search := "" }
        { session := Handler.SessionOutcome.ok "u1",
          profile := Handler.ProfileOutcome.found, authCheckTimeout := false } ++
      Handler.handleOAuthCallback true
        { hash := "#access_token=abc", search := "" }
        { session := Handler.SessionOutcome.ok "u1",
          profile := Handler.ProfileOutcome.found, authCheckTimeout := false }).count
      Handler.AuthEvent.getSession = 1 :=
  (C8_single_flight_guard
    { hash := "#access_token=abc", search := "" }
    { session := Handler.SessionOutcome.ok "u1",
      profile := Handler.ProfileOutcome.found, authCheckTimeout := false }
    { session := Handler.SessionOutcome.ok "u1",
      profile := Handler.ProfileOutcome.found, authCheckTimeout := false }).2.2 (by decide)

/-- C3, evaluation at the failing input: a checkAuthStatus run whose only
failures are transient timeouts (every getUser and getSession attempt inside
getCurrentUser times out, and the session-validation getSession times out)
clears the cached user and reports unauthenticated, although the claim and
the source comments state that transient errors never force a logout. -/
theorem C3_transient_failures_clear_cached_user :
    (AuthCtx.checkAuthStatus
      { user := some "u1", profile := none, error := none, retryCount := 0 }
      { gcu1 := [Mobile.GcuAttempt.timeout, Mobile.GcuAttempt.timeout],
        validate1 := AuthCtx.GetSessionOutcome.timeout,
        gcu2 := [Mobile.GcuAttempt.timeout, Mobile.GcuAttempt.timeout],
        profileFetch := AuthCtx.ProfileFetchOutcome.thrown,
        validate2 := AuthCtx.GetSessionOutcome.timeout }
      0).2.user = none ∧
    (AuthCtx.checkAuthStatus
      { user := some "u1", profile := none, error := none, retryCount := 0 }
      { gcu1 := [Mobile.GcuAttempt.timeout, Mobile.GcuAttempt.timeout],
        validate1 := AuthCtx.GetSessionOutcome.timeout,
        gcu2 := [Mobile.GcuAttempt.timeout, Mobile.GcuAttempt.timeout],
        profileFetch := AuthCtx.ProfileFetchOutcome.thrown,
        validate2 := AuthCtx.GetSessionOutcome.timeout }
      0).1 = false ∧
    Mobile.getCurrentUser [Mobile.GcuAttempt.timeout, Mobile.GcuAttempt.timeout] = none :=
  ⟨rfl, rfl, rfl⟩

/-- C7. An uploadPhoto call whose file is not an image or exceeds the 10 MiB
cap fails before any network call: the result is a validation failure, the
trace of issued calls is empty (no count query, no object write, no metadata
insert), the photos table is unchanged, and the error message matches the
failed validation. -/
theorem C7_invalid_input_no_network (file : PhotoStorage.UploadFile)
    (uid org : String) (ts : Nat) (env : PhotoStorage.UploadEnv)
    (photos : List PhotoStorage.Photo)
    (h : jsStartsWith file.type "image/" = false ∨
      PhotoStorage.MAX_FILE_SIZE < file.size) :
    (PhotoStorage.uploadPhoto file uid org ts env photos).1.success = false ∧
    (PhotoStorage.uploadPhoto file uid org ts env photos).2.2 = [] ∧
    (PhotoStorage.uploadPhoto file uid org ts env photos).2.1 = photos ∧
    (jsStartsWith file.type "image/" = false →
      (PhotoStorage.uploadPhoto file uid org ts env photos).1.error =
        some "File must be an image") ∧
    (jsStartsWith file.type "image/" = true →
      (PhotoStorage.uploadPhoto file uid org ts env photos).1.error =
        some "File size must be less than 10MB") := by
  rcases h with hm | hs
  · simp [PhotoStorage.uploadPhoto, hm]
  · by_cases hm : jsStartsWith file.type "image/"
    · simp [PhotoStorage.uploadPhoto, hm, hs]
    · simp at hm
      simp [PhotoStorage.uploadPhoto, hm]

/-- Witness for C7: a 12 MiB JPEG is rejected with an empty trace. -/
theorem C7_invalid_input_no_network_witness :
    (PhotoStorage.uploadPhoto
      { type := "image/jpeg", size := 12 * 1024 * 1024, name := "big.jpg" }
      "u1" "org1" 17
      { countFails := false, uploadFails := false, publicUrl := some "url",
        insertFails := false, removeFails := false }
      []).2.2 = [] :=
  (C7_invalid_input_no_network
    { type := "image/jpeg", size := 12 * 1024 * 1024, name := "big.jpg" }
    "u1" "org1" 17
    { countFails := false, uploadFails := false, publicUrl := some "url",
      insertFails := false, removeFails := false }
    [] (Or.inr (by decide))).2.1

/-- C2. When the object write succeeds and the metadata insert fails, the
call compensates by removing exactly the key it just wrote, exactly once, and
returns the metadata-write failure with the table unchanged; the conclusion
does not constrain removeFails, so it holds whether or not the compensating
delete succeeds. -/
theorem C2_metadata_failure_compensation (file : PhotoStorage.UploadFile)
    (uid org url : String) (ts : Nat) (env : PhotoStorage.UploadEnv)
    (photos : List PhotoStorage.Photo)
    (h1 : jsStartsWith file.type "image/" = true)
    (h2 : file.size ≤ PhotoStorage.MAX_FILE_SIZE)
    (h3 : env.countFails = false)
    (h4 : PhotoStorage.countOwner photos uid < 5)
    (h5 : env.uploadFails = false)
    (h6 : env.publicUrl = some url)
    (h7 : env.insertFails = true) :
    PhotoStorage.uploadPhoto file uid org ts env photos =
      ({ success := false, data := none, error := some "Failed to save photo metadata" },
        photos,
        [PhotoStorage.StoreEvent.countQuery uid,
         PhotoStorage.StoreEvent.storagePut (PhotoStorage.generateFileName org uid ts file.name),
         PhotoStorage.StoreEvent.dbInsert uid url,
         PhotoStorage.StoreEvent.storageRemove
           (PhotoStorage.generateFileName org uid ts file.name)]) ∧
    (PhotoStorage.uploadPhoto file uid org ts env photos).2.2.count
      (PhotoStorage.StoreEvent.storageRemove
        (PhotoStorage.generateFileName org uid ts file.name)) = 1 ∧
    (∀ k, PhotoStorage.StoreEvent.storageRemove k ∈
        (PhotoStorage.uploadPhoto file uid org ts env photos).2.2 →
      k = PhotoStorage.generateFileName org uid ts file.name) := by
  have hsize : ¬ file.size > PhotoStorage.MAX_FILE_SIZE := Nat.not_lt.mpr h2
  have hq : ¬ 5 ≤ (photos.filter (fun p => p.takenbyuserId == uid)).length := by
    have hco : (photos.filter (fun p => p.takenbyuserId == uid)).length < 5 := by
      simpa [PhotoStorage.countOwner] using h4
    omega
  have heq : PhotoStorage.uploadPhoto file uid org ts env photos =
      ({ success := false, data := none, error := some "Failed to save photo metadata" },
        photos,
        [PhotoStorage.StoreEvent.countQuery uid,
         PhotoStorage.StoreEvent.storagePut (PhotoStorage.generateFileName org uid ts file.name),
         PhotoStorage.StoreEvent.dbInsert uid url,
         PhotoStorage.StoreEvent.storageRemove
           (PhotoStorage.generateFileName org uid ts file.name)]) := by
    simp [PhotoStorage.uploadPhoto, PhotoStorage.withRetry, PhotoStorage.withRetryAux,
      PhotoStorage.MAX_PHOTOS_PER_USER, h1, hsize, h3, hq, h5, h6, h7]
  refine ⟨heq, ?_, ?_⟩
  · rw [heq]
    simp [List.count_cons]
  · intro k hk
    rw [heq] at hk
    simp only [List.mem_cons, List.not_mem_nil, or_false] at hk
    rcases hk with hk | hk | hk | hk <;> simp_all

/-- Witness for C2: a concrete metadata-insert failure after a successful
object write compensates once and fails with the metadata message. -/
theorem C2_metadata_failure_compensation_witness :
    PhotoStorage.uploadPhoto
      { type := "image/png", size := 100, name := "p.png" } "u1" "org1" 17
      { countFails := false, uploadFails := false, publicUrl := some "http:u",
        insertFails := true, removeFails := true }
      [] =
      ({ success := false, data := none, error := some "Failed to save photo metadata" },
        [],
        [PhotoStorage.StoreEvent.countQuery "u1",
         PhotoStorage.StoreEvent.storagePut
           (PhotoStorage.generateFileName "org1" "u1" 17 "p.png"),
         PhotoStorage.StoreEvent.dbInsert "u1" "http:u",
         PhotoStorage.StoreEvent.storageRemove
           (PhotoStorage.generateFileName "org1" "u1" 17 "p.png")]) :=
  (C2_metadata_failure_compensation
    { type := "image/png", size := 100, name := "p.png" } "u1" "org1" "http:u" 17
    { countFails := false, uploadFails := false, publicUrl := some "http:u",
      insertFails := true, removeFails := true }
    [] (by decide) (by decide) rfl (by decide) rfl rfl rfl).1

/-- Helper: one uploadPhoto call either leaves the photos table unchanged or,
only when the counted rows of the owner were below the cap, appends exactly
one row owned by the caller. -/
theorem uploadPhoto_state_cases (file : PhotoStorage.UploadFile)
    (uid org : String) (ts : Nat) (env : PhotoStorage.UploadEnv)
    (photos : List PhotoStorage.Photo) :
    (PhotoStorage.uploadPhoto file uid org ts env photos).2.1 = photos ∨
    (PhotoStorage.countOwner photos uid < 5 ∧ ∃ url,
      (PhotoStorage.uploadPhoto file uid org ts env photos).2.1 =
        photos ++ [{ takenbyuserId := uid, imageurl := url }]) := by
  rcases env with ⟨cf, uf, pu, inf, rm⟩
  by_cases hm : jsStartsWith file.type "image/"
  · by_cases hsz : file.size > PhotoStorage.MAX_FILE_SIZE
    · left; simp [PhotoStorage.uploadPhoto, hm, hsz]
    · cases cf
      · by_cases hq : 5 ≤ (photos.filter (fun p => p.takenbyuserId == uid)).length
        · left
          simp [PhotoStorage.uploadPhoto, PhotoStorage.withRetry,
            PhotoStorage.withRetryAux, PhotoStorage.MAX_PHOTOS_PER_USER, hm, hsz, hq]
        · have hco : PhotoStorage.countOwner photos uid < 5 := by
            unfold PhotoStorage.countOwner
            omega
          cases uf
          · rcases pu with _ | url
            · left
              simp [PhotoStorage.uploadPhoto, PhotoStorage.withRetry,
                PhotoStorage.withRetryAux, PhotoStorage.MAX_PHOTOS_PER_USER, hm, hsz, hq]
            · cases inf
              · right
                exact ⟨hco, url, by
                  simp [PhotoStorage.uploadPhoto, PhotoStorage.withRetry,
                    PhotoStorage.withRetryAux, PhotoStorage.MAX_PHOTOS_PER_USER, hm, hsz, hq]⟩
              · left
                simp [PhotoStorage.uploadPhoto, PhotoStorage.withRetry,
                  PhotoStorage.withRetryAux, PhotoStorage.MAX_PHOTOS_PER_USER, hm, hsz, hq]
          · left
            simp [PhotoStorage.uploadPhoto, PhotoStorage.withRetry,
              PhotoStorage.withRetryAux, PhotoStorage.MAX_PHOTOS_PER_USER, hm, hsz, hq]
      · left
        simp [PhotoStorage.uploadPhoto, PhotoStorage.withRetry,
          PhotoStorage.withRetryAux, PhotoStorage.MAX_PHOTOS_PER_USER, hm, hsz]
  · left; simp [PhotoStorage.uploadPhoto, hm]

/-- Helper: one uploadPhoto call preserves the per-owner bound of five rows. -/
theorem uploadPhoto_preserves_quota (file : PhotoStorage.UploadFile)
    (uid org : String) (ts : Nat) (env : PhotoStorage.UploadEnv)
    (photos : List PhotoStorage.Photo) (owner : String)
    (h : PhotoStorage.countOwner photos owner ≤ 5) :
    PhotoStorage.countOwner
      (PhotoStorage.uploadPhoto file uid org ts env photos).2.1 owner ≤ 5 := by
  rcases uploadPhoto_state_cases file uid org ts env photos with heq | ⟨hlt, url, heq⟩
  · rw [heq]; exact h
  · rw [heq]
    unfold PhotoStorage.countOwner at *
    rw [List.filter_append, List.length_append]
    by_cases hb : uid = owner
    · subst hb
      simp only [List.filter_cons, List.filter_nil, beq_self_eq_true, if_pos]
      simp only [List.length_cons, List.length_nil]
      omega
    · have : (([{ takenbyuserId := uid, imageurl := url } ] :
          List PhotoStorage.Photo).filter (fun p => p.takenbyuserId == owner)) = [] := by
        simp [hb]
      rw [this]
      simpa using h

/-- C1. Per-member quota invariant: from any photos table in which a member
owns at most five rows, any sequence of sequentially executed uploadPhoto
calls leaves that member with at most five rows; and whenever the count query
succeeds on a valid file while the member already owns five or more rows, the
call returns the quota failure, performs no object write and no metadata
insert (the trace is the count query alone), and leaves the table
unchanged. -/
theorem C1_upload_quota_invariant (owner : String)
    (photos : List PhotoStorage.Photo) (calls : List PhotoStorage.UploadCall)
    (hinv : PhotoStorage.countOwner photos owner ≤ 5) :
    PhotoStorage.countOwner (PhotoStorage.runUploads photos calls) owner ≤ 5 ∧
    (∀ (file : PhotoStorage.UploadFile) (uid org : String) (ts : Nat)
        (env : PhotoStorage.UploadEnv) (st : List PhotoStorage.Photo),
      jsStartsWith file.type "image/" = true →
      file.size ≤ PhotoStorage.MAX_FILE_SIZE →
      env.countFails = false →
      5 ≤ PhotoStorage.countOwner st uid →
      PhotoStorage.uploadPhoto file uid org ts env st =
        ({ success := false, data := none,
           error := some "Maximum of 5 photos allowed per member" },
          st, [PhotoStorage.StoreEvent.countQuery uid])) := by
  constructor
  · induction calls generalizing photos with
    | nil => exact hinv
    | cons c rest ih =>
      exact ih _ (uploadPhoto_preserves_quota c.file c.userId c.organizationId
        c.timestamp c.env photos owner hinv)
  · intro file uid org ts env st hm hsz hc hge
    have hsize : ¬ file.size > PhotoStorage.MAX_FILE_SIZE := Nat.not_lt.mpr hsz
    have hq : 5 ≤ (st.filter (fun p => p.takenbyuserId == uid)).length := by
      simpa [PhotoStorage.countOwner] using hge
    simp [PhotoStorage.uploadPhoto, PhotoStorage.withRetry, PhotoStorage.withRetryAux,
      PhotoStorage.MAX_PHOTOS_PER_USER, hm, hsize, hc, hq]

/-- Witness for C1: a member owning five rows keeps five rows across an
upload attempt, and that attempt is rejected with the quota message and a
count-query-only trace. -/
theorem C1_upload_quota_invariant_witness :
    PhotoStorage.countOwner
      (PhotoStorage.runUploads
        [{ takenbyuserId := "u1", imageurl := "a" },
         { takenbyuserId := "u1", imageurl := "b" },
         { takenbyuserId := "u1", imageurl := "c" },
         { takenbyuserId := "u1", imageurl := "d" },
         { takenbyuserId := "u1", imageurl := "e" }]
        [{ file := { type := "image/png", size := 9, name := "f.png" },
           userId := "u1", organizationId := "org1", timestamp := 17,
           env := { countFails := false, uploadFails := false,
                    publicUrl := some "u", insertFails := false,
                    removeFails := false } }]) "u1" ≤ 5 ∧
    PhotoStorage.uploadPhoto
      { type := "image/png", size := 9, name := "f.png" } "u1" "org1" 17
      { countFails := false, uploadFails := false, publicUrl := some "u",
        insertFails := false, removeFails := false }
      [{ takenbyuserId := "u1", imageurl := "a" },
       { takenbyuserId := "u1", imageurl := "b" },
       { takenbyuserId := "u1", imageurl := "c" },
       { takenbyuserId := "u1", imageurl := "d" },
       { takenbyuserId := "u1", imageurl := "e" }] =
      ({ success := false, data := none,
         error := some "Maximum of 5 photos allowed per member" },
        [{ takenbyuserId := "u1", imageurl := "a" },
         { takenbyuserId := "u1", imageurl := "b" },
         { takenbyuserId := "u1", imageurl := "c" },
         { takenbyuserId := "u1", imageurl := "d" },
         { takenbyuserId := "u1", imageurl := "e" }],
        [PhotoStorage.StoreEvent.countQuery "u1"]) := by
  have h := C1_upload_quota_invariant "u1"
    [{ takenbyuserId := "u1", imageurl := "a" },
     { takenbyuserId := "u1", imageurl := "b" },
     { takenbyuserId := "u1", imageurl := "c" },
     { takenbyuserId := "u1", imageurl := "d" },
     { takenbyuserId := "u1", imageurl := "e" }]
    [{ file := { type := "image/png", size := 9, name := "f.png" },
       userId := "u1", organizationId := "org1", timestamp := 17,
       env := { countFails := false, uploadFails := false,
                publicUrl := some "u", insertFails := false,
                removeFails := false } }]
    (by decide)
  exact ⟨h.1, h.2 { type := "image/png", size := 9, name := "f.png" } "u1" "org1" 17
    { countFails := false, uploadFails := false, publicUrl := some "u",
      insertFails := false, removeFails := false } _
    (by decide) (by decide) rfl (by decide)⟩

/-- Helper: searching a list extended by one matching element finds that
element when the original list had no match. -/
theorem find?_append_singleton {α : Type} (p : α → Bool) (l : List α) (a : α)
    (h : l.find? p = none) (ha : p a = true) : (l ++ [a]).find? p = some a := by
  induction l with
  | nil => simp [List.find?, ha]
  | cons x xs ih =>
    cases hx : p x
    · rw [List.find?_cons_of_neg _ (by simp [hx])] at h
      rw [List.cons_append, List.find?_cons_of_neg _ (by simp [hx])]
      exact ih h
    · rw [List.find?_cons_of_pos _ hx] at h
      cases h

/-- Helper: the insert loop either leaves the users table unchanged or
appends exactly the one row it was given, and never touches the
organizations table. -/
theorem insertWithAttempts_spec (row : Mobile.UserProfileRow) (db : Mobile.Db)
    (outcomes : List (Option String)) :
    ((Mobile.insertWithAttempts row db outcomes).2.users = db.users ∨
      (Mobile.insertWithAttempts row db outcomes).2.users = db.users ++ [row]) ∧
    (Mobile.insertWithAttempts row db outcomes).2.organizations = db.organizations := by
  induction outcomes with
  | nil => exact ⟨Or.inl rfl, rfl⟩
  | cons o rest ih =>
    cases o with
    | none => exact ⟨Or.inr rfl, rfl⟩
    | some msg =>
      by_cases hr : rest.isEmpty
      · simp [Mobile.insertWithAttempts, hr]
      · simpa [Mobile.insertWithAttempts, hr] using ih

/-- Helper: behaviour of one provisioning call with a valid join code whose
organization lookup and existence check complete: an existing profile makes
it a mutation-free success, the organizations table is never touched, and
without an existing profile the users table either stays unchanged or gains
exactly one row carrying the identity id. -/
theorem provision_cases (user : Mobile.OAuthUser) (joinCode : String)
    (role : Option String) (env : Mobile.ProvisionEnv) (db : Mobile.Db)
    (org : Mobile.Organization)
    (hid : user.id ≠ "") (hjc : jsTrim joinCode ≠ "")
    (horg : Mobile.findOrg db (jsTrim joinCode) = some org)
    (ha : env.orgTimeout = false) (hb : env.orgError = false)
    (hc : env.existingCheckFails = false) :
    ((Mobile.findUser db user.id).isSome = true →
      Mobile.createUserProfileFromOAuth user joinCode role env db = (none, db)) ∧
    (Mobile.createUserProfileFromOAuth user joinCode role env db).2.organizations =
      db.organizations ∧
    (Mobile.findUser db user.id = none →
      ((Mobile.createUserProfileFromOAuth user joinCode role env db).2.users = db.users ∨
        ∃ row : Mobile.UserProfileRow, row.id = user.id ∧
          (Mobile.createUserProfileFromOAuth user joinCode role env db).2.users =
            db.users ++ [row])) := by
  cases hf : Mobile.findUser db user.id with
  | some p =>
    have heq : Mobile.createUserProfileFromOAuth user joinCode role env db = (none, db) := by
      simp [Mobile.createUserProfileFromOAuth, hid, hjc, ha, hb, horg, hc, hf]
    exact ⟨fun _ => heq, by rw [heq], fun hnone => by simp [hf] at hnone⟩
  | none =>
    have heq : Mobile.createUserProfileFromOAuth user joinCode role env db =
        Mobile.insertWithAttempts
          { id := user.id, name := jsTrim (Mobile.deriveUserName user),
            email := jsToLower (jsTrim (user.email.getD "")),
            organization_id := org.id,
            role :=
              match jsTruthy (role.map jsTrim) with
              | some r => r
              | none => "member" } db env.insertOutcomes := by
      simp [Mobile.createUserProfileFromOAuth, hid, hjc, ha, hb, horg, hc, hf]
    have hspec := insertWithAttempts_spec
      { id := user.id, name := jsTrim (Mobile.deriveUserName user),
        email := jsToLower (jsTrim (user.email.getD "")),
        organization_id := org.id,
        role :=
          match jsTruthy (role.map jsTrim) with
          | some r => r
          | none => "member" } db env.insertOutcomes
    refine ⟨fun hsome => by simp [hf] at hsome, by rw [heq]; exact hspec.2, fun _ => ?_⟩
    rw [heq]
    rcases hspec.1 with h | h
    · exact Or.inl h
    · exact Or.inr ⟨_, rfl, h⟩

/-- C6. Provisioning is idempotent: with a valid join code and completing
lookups, a call that finds an existing profile for the identity succeeds
without any mutation, and two successive calls with the same identity leave
at most one users-table row for that identity beyond what max of the original
count and one allows (so starting from no row, at most one row in total is
created). -/
theorem C6_provision_idempotent (user : Mobile.OAuthUser) (joinCode : String)
    (role : Option String) (env1 env2 : Mobile.ProvisionEnv) (db : Mobile.Db)
    (org : Mobile.Organization)
    (hid : user.id ≠ "") (hjc : jsTrim joinCode ≠ "")
    (horg : Mobile.findOrg db (jsTrim joinCode) = some org)
    (h1a : env1.orgTimeout = false) (h1b : env1.orgError = false)
    (h1c : env1.existingCheckFails = false)
    (h2a : env2.orgTimeout = false) (h2b : env2.orgError = false)
    (h2c : env2.existingCheckFails = false) :
    ((Mobile.findUser db user.id).isSome = true →
      Mobile.createUserProfileFromOAuth user joinCode role env1 db = (none, db)) ∧
    Mobile.countUsersById
      (Mobile.createUserProfileFromOAuth user joinCode role env2
        (Mobile.createUserProfileFromOAuth user joinCode role env1 db).2).2 user.id ≤
      max (Mobile.countUsersById db user.id) 1 := by
  have P1 := provision_cases user joinCode role env1 db org hid hjc horg h1a h1b h1c
  refine ⟨P1.1, ?_⟩
  cases hf : Mobile.findUser db user.id with
  | some p =>
    have he1 := P1.1 (by simp [hf])
    rw [he1]
    have P2 := provision_cases user joinCode role env2 db org hid hjc horg h2a h2b h2c
    have he2 := P2.1 (by simp [hf])
    rw [he2]
    exact le_max_left _ _
  | none =>
    have hzero : Mobile.countUsersById db user.id = 0 := by
      unfold Mobile.countUsersById
      refine List.countP_eq_zero.mpr ?_
      intro a hmem
      have := List.find?_eq_none.mp hf a hmem
      simpa using this
    set db1 := (Mobile.createUserProfileFromOAuth user joinCode role env1 db).2 with hdb1
    have horg1 : Mobile.findOrg db1 (jsTrim joinCode) = some org := by
      unfold Mobile.findOrg
      rw [show db1.organizations = db.organizations from P1.2.1]
      exact horg
    have P2 := provision_cases user joinCode role env2 db1 org hid hjc horg1 h2a h2b h2c
    rcases P1.2.2 hf with h1 | ⟨row, hrow, h1⟩
    · have hf1 : Mobile.findUser db1 user.id = none := by
        unfold Mobile.findUser
        rw [h1]
        exact hf
      rcases P2.2.2 hf1 with h2 | ⟨row2, hrow2, h2⟩
      · rw [show Mobile.countUsersById
            (Mobile.createUserProfileFromOAuth user joinCode role env2 db1).2 user.id =
            Mobile.countUsersById db user.id from by
          unfold Mobile.countUsersById; rw [h2, h1]]
        omega
      · have : Mobile.countUsersById
            (Mobile.createUserProfileFromOAuth user joinCode role env2 db1).2 user.id = 1 := by
          unfold Mobile.countUsersById
          rw [h2, h1, List.countP_append]
          have hz : db.users.countP (fun u => u.id == user.id) = 0 := hzero
          simp [hz, hrow2]
        omega
    · have hf1 : Mobile.findUser db1 user.id = some row := by
        unfold Mobile.findUser
        rw [h1]
        refine find?_append_singleton _ _ _ hf ?_
        simp [hrow]
      have he2 := P2.1 (by simp [hf1])
      have hone : Mobile.countUsersById db1 user.id = 1 := by
        unfold Mobile.countUsersById
        rw [h1, List.countP_append]
        have hz : db.users.countP (fun u => u.id == user.id) = 0 := hzero
        simp [hz, hrow]
      have hc2 : Mobile.countUsersById
          (Mobile.createUserProfileFromOAuth user joinCode role env2 db1).2 user.id = 1 := by
        rw [he2]
        exact hone
      omega

/-- Witness for C6: with one organization, a valid join code and an existing
profile, the call is a mutation-free success and the final count stays at
one. -/
theorem C6_provision_idempotent_witness :
    (Mobile.createUserProfileFromOAuth
      { id := "u1", email := some "a@acme.com", metaFullName := none, metaName := none }
      "ACME-2024" (some "member")
      { orgTimeout := false, orgError := false, existingCheckFails := false,
        insertOutcomes := [none, none, none] }
      { users := [{ id := "u1", name := "a", email := "a@acme.com",
                    organization_id := "org1", role := "member" }],
        organizations := [{ id := "org1", name := "Acme", join_code := "ACME-2024" }] } =
      (none,
        { users := [{ id := "u1", name := "a", email := "a@acme.com",
                      organization_id := "org1", role := "member" }],
          organizations := [{ id := "org1", name := "Acme", join_code := "ACME-2024" }] })) ∧
    Mobile.countUsersById
      (Mobile.createUserProfileFromOAuth
        { id := "u1", email := some "a@acme.com", metaFullName := none, metaName := none }
        "ACME-2024" (some "member")
        { orgTimeout := false, orgError := false, existingCheckFails := false,
          insertOutcomes := [none, none, none] }
        (Mobile.createUserProfileFromOAuth
          { id := "u1", email := some "a@acme.com", metaFullName := none, metaName := none }
          "ACME-2024" (some "member")
          { orgTimeout := false, orgError := false, existingCheckFails := false,
            insertOutcomes := [none, none, none] }
          { users := [{ id := "u1", name := "a", email := "a@acme.com",
                        organization_id := "org1", role := "member" }],
            organizations :=
              [{ id := "org1", name := "Acme", join_code := "ACME-2024" }] }).2).2 "u1" ≤
      max (Mobile.countUsersById
        { users := [{ id := "u1", name := "a", email := "a@acme.com",
                      organization_id := "org1", role := "member" }],
          organizations := [{ id := "org1", name := "Acme", join_code := "ACME-2024" }] }
        "u1") 1 := by
  have h := C6_provision_idempotent
    { id := "u1", email := some "a@acme.com", metaFullName := none, metaName := none }
    "ACME-2024" (some "member")
    { orgTimeout := false, orgError := false, existingCheckFails := false,
      insertOutcomes := [none, none, none] }
    { orgTimeout := false, orgError := false, existingCheckFails := false,
      insertOutcomes := [none, none, none] }
    { users := [{ id := "u1", name := "a", email := "a@acme.com",
                  organization_id := "org1", role := "member" }],
      organizations := [{ id := "org1", name := "Acme", join_code := "ACME-2024" }] }
    { id := "org1", name := "Acme", join_code := "ACME-2024" }
    (by decide) (by decide) (by decide) rfl rfl rfl rfl rfl rfl
  exact ⟨h.1 (by decide), h.2⟩

end Headshots
